import Mathlib

/-!
Verification development for the Deviot plugin sources
`src/libraries/messages.py` and `src/libraries/project_check.py`.

The Python code is shallowly embedded: pure string manipulation becomes
functions on `List Char` / `String`; the stateful message queue and the
panel lifecycle become explicit state records with step functions; the
side effects that the code performs on external collaborators (the
Sublime Text window/view API, the filesystem, the config file) are
recorded as explicit event/effect traces.
-/

namespace Deviot

/-! ### Newline normalization, from `Messages.send_to_file` (messages.py line 174)

The Python line is
  `text.replace('\r\n', '\n'). replace('\r', '\n').replace('\\n', '\n')`
Python `str.replace` replaces non-overlapping occurrences left to right;
each pass below implements one of the three `replace` calls with exactly
that scan order. -/

/-- One pass of `replace('\r\n', '\n')`: a left-to-right scan replacing each
non-overlapping occurrence of the two-character sequence CR LF by LF. -/
def replaceCRLF : List Char → List Char
  | [] => []
  | [c] => [c]
  | c :: d :: rest =>
    if c = '\r' ∧ d = '\n' then '\n' :: replaceCRLF rest
    else c :: replaceCRLF (d :: rest)

/-- One pass of `replace('\r', '\n')`: the pattern is a single character, so
the scan is a pointwise map. -/
def replaceCR (l : List Char) : List Char :=
  l.map (fun c => if c = '\r' then '\n' else c)

/-- One pass of `replace('\\n', '\n')`: a left-to-right scan replacing each
non-overlapping occurrence of the two-character sequence backslash `n`
(a literal backslash followed by the letter n) by LF. -/
def replaceBackslashN : List Char → List Char
  | [] => []
  | [c] => [c]
  | c :: d :: rest =>
    if c = '\\' ∧ d = 'n' then '\n' :: replaceBackslashN rest
    else c :: replaceBackslashN (d :: rest)

/-- The full normalization performed by `Messages.send_to_file`:
the three `replace` passes in the order the source applies them. -/
def normalize (l : List Char) : List Char :=
  replaceBackslashN (replaceCR (replaceCRLF l))

/-- Two-step list induction mirroring the recursion pattern of
`replaceCRLF` and `replaceBackslashN`. -/
def twoStepInduction {motive : List Char → Prop}
    (h0 : motive []) (h1 : ∀ c, motive [c])
    (h2 : ∀ c d rest, motive rest → motive (d :: rest) → motive (c :: d :: rest)) :
    ∀ l, motive l
  | [] => h0
  | [c] => h1 c
  | c :: d :: rest =>
    h2 c d rest (twoStepInduction h0 h1 h2 rest) (twoStepInduction h0 h1 h2 (d :: rest))

/-- `replaceCR` leaves no carriage return in its output. -/
theorem replaceCR_no_cr (l : List Char) : '\r' ∉ replaceCR l := by
  intro h
  rcases List.mem_map.mp h with ⟨c, _, hc⟩
  by_cases hcr : c = '\r' <;> simp [hcr] at hc

/-- On a CR-free list, the CRLF pass is the identity. -/
theorem replaceCRLF_eq_of_no_cr (l : List Char) (h : '\r' ∉ l) : replaceCRLF l = l := by
  induction l using twoStepInduction with
  | h0 => rfl
  | h1 c => rfl
  | h2 c d rest ih ih2 =>
    have hc : c ≠ '\r' := fun hc => h (by simp [hc])
    have hrest : '\r' ∉ d :: rest := fun hm => h (List.mem_cons_of_mem _ hm)
    simp only [replaceCRLF]
    rw [if_neg (by rintro ⟨hc', _⟩; exact hc hc')]
    rw [ih2 hrest]

/-- On a CR-free list, the CR pass is the identity. -/
theorem replaceCR_eq_of_no_cr (l : List Char) (h : '\r' ∉ l) : replaceCR l = l := by
  induction l with
  | nil => rfl
  | cons c rest ih =>
    have hc : c ≠ '\r' := fun hc => h (by simp [hc])
    have hrest : '\r' ∉ rest := fun hm => h (List.mem_cons_of_mem _ hm)
    have htail := ih hrest
    simp only [replaceCR, List.map_cons] at htail ⊢
    rw [if_neg hc, htail]

/-- The backslash-n pass never introduces a carriage return. -/
theorem replaceBackslashN_no_cr (l : List Char) (h : '\r' ∉ l) :
    '\r' ∉ replaceBackslashN l := by
  induction l using twoStepInduction with
  | h0 => simp [replaceBackslashN]
  | h1 c => simpa [replaceBackslashN] using h
  | h2 c d rest ih ih2 =>
    have hc : c ≠ '\r' := fun hc => h (by simp [hc])
    have hrest : '\r' ∉ d :: rest := fun hm => h (List.mem_cons_of_mem _ hm)
    have hrest' : '\r' ∉ rest := fun hm => hrest (List.mem_cons_of_mem _ hm)
    simp only [replaceBackslashN]
    split
    · intro hm
      rcases List.mem_cons.mp hm with h' | h'
      · exact absurd h'.symm (by decide)
      · exact ih hrest' h'
    · intro hm
      rcases List.mem_cons.mp hm with h' | h'
      · exact hc h'.symm
      · exact ih2 hrest h'

/-- Detects an occurrence of the two-character sequence backslash `n`. -/
def hasBSN : List Char → Bool
  | [] => false
  | [_] => false
  | c :: d :: rest => (c = '\\' && d = 'n') || hasBSN (d :: rest)

theorem hasBSN_cons_of_ne (c : Char) (x : List Char) (hc : c ≠ '\\') :
    hasBSN (c :: x) = hasBSN x := by
  cases x with
  | nil => simp [hasBSN]
  | cons d rest => simp [hasBSN, hc]

/-- The head of the backslash-n pass output is the input's head or LF. -/
theorem replaceBackslashN_head (l : List Char) :
    (replaceBackslashN l).head? = l.head? ∨ (replaceBackslashN l).head? = some '\n' := by
  match l with
  | [] => left; rfl
  | [c] => left; rfl
  | c :: d :: rest =>
    simp only [replaceBackslashN]
    split
    · right; rfl
    · left; rfl

/-- The backslash-n pass leaves no backslash-n occurrence in its output. -/
theorem hasBSN_replaceBackslashN (l : List Char) : hasBSN (replaceBackslashN l) = false := by
  induction l using twoStepInduction with
  | h0 => rfl
  | h1 c => rfl
  | h2 c d rest ih ih2 =>
    simp only [replaceBackslashN]
    split
    · rw [hasBSN_cons_of_ne _ _ (by decide)]
      exact ih
    · rename_i hnot
      by_cases hc : c = '\\'
      · have hd : d ≠ 'n' := fun hd => hnot ⟨hc, hd⟩
        subst hc
        cases hx : replaceBackslashN (d :: rest) with
        | nil => rfl
        | cons y ys =>
          have hy : y ≠ 'n' := by
            rcases replaceBackslashN_head (d :: rest) with h' | h' <;>
              rw [hx] at h' <;> simp at h'
            · rw [h']; exact hd
            · rw [h']; decide
          have : hasBSN ('\\' :: y :: ys) = hasBSN (y :: ys) := by
            simp [hasBSN, hy]
          rw [this, ← hx]
          exact ih2
      · rw [hasBSN_cons_of_ne _ _ hc]
        exact ih2

/-- On a list with no backslash-n occurrence, the backslash-n pass is the
identity. -/
theorem replaceBackslashN_eq_of_no_bsn (l : List Char) (h : hasBSN l = false) :
    replaceBackslashN l = l := by
  induction l using twoStepInduction with
  | h0 => rfl
  | h1 c => rfl
  | h2 c d rest ih ih2 =>
    simp only [hasBSN, Bool.or_eq_false_iff, Bool.and_eq_false_iff] at h
    obtain ⟨h1', h2'⟩ := h
    simp only [replaceBackslashN]
    rw [if_neg (by rintro ⟨hc, hd⟩; rcases h1' with h' | h' <;> simp [hc, hd] at h')]
    rw [ih2 h2']

/-- Normalized text contains no carriage return. -/
theorem normalize_no_cr (l : List Char) : '\r' ∉ normalize l :=
  replaceBackslashN_no_cr _ (replaceCR_no_cr _)

/-- Normalized text contains no backslash-n occurrence. -/
theorem normalize_no_bsn (l : List Char) : hasBSN (normalize l) = false :=
  hasBSN_replaceBackslashN _

/-- Claim C5: the newline normalization performed in `Messages.send_to_file`
(`\r\n`, bare `\r`, and the literal backslash-n sequence each mapped to a
single `\n`) is idempotent: applying it twice yields the same string as
applying it once, for every input. -/
theorem C5_normalize_idempotent : ∀ l : List Char, normalize (normalize l) = normalize l := by
  intro l
  have hcr : '\r' ∉ normalize l := normalize_no_cr l
  calc normalize (normalize l)
      = replaceBackslashN (replaceCR (replaceCRLF (normalize l))) := rfl
    _ = replaceBackslashN (replaceCR (normalize l)) := by
        rw [replaceCRLF_eq_of_no_cr _ hcr]
    _ = replaceBackslashN (normalize l) := by rw [replaceCR_eq_of_no_cr _ hcr]
    _ = normalize l := replaceBackslashN_eq_of_no_bsn _ (normalize_no_bsn l)

/-- Sanity evaluation of the normalization on a mixed input. -/
theorem normalize_example :
    normalize "a\r\nb\rc\\nd".data = "a\nb\nc\nd".data := by decide

/-! ### The drain step, from `Messages.service_text_queue` (messages.py lines 148-168)

The method acquires `text_queue_lock`; if the deque is empty it returns
(the `finally` releases the lock, nothing is scheduled); otherwise it pops
one fragment from the left, records whether the queue became empty, calls
`send_to_file` on the fragment (still inside the `try`, so still under the
lock), releases the lock, and — if the queue was non-empty after the pop —
schedules itself again via `sublime.set_timeout(self.service_text_queue, 1)`,
a 1-millisecond delay. -/

/-- Result of one invocation of `service_text_queue` on a queue state:
the remaining queue, the fragment passed to `send_to_file` (if any), and
the delay of the re-arm `set_timeout` call (if one was issued). -/
structure DrainResult where
  queue : List String
  written : Option String
  rearmDelay : Option Nat
deriving DecidableEq, Repr

/-- `Messages.service_text_queue`, as a function of the queue contents. -/
def service_text_queue : List String → DrainResult
  | [] => ⟨[], none, none⟩
  | t :: rest => ⟨rest, some t, if rest.isEmpty then none else some 1⟩

/-! ### Whole-queue runs, for the FIFO delivery claim (C1)

`Messages.print` (messages.py lines 131-146) appends the (translated,
decoded) fragment to the right of the deque under the lock; the lock
serializes enqueues into a total order, and the host scheduler runs the
drain steps one at a time on the UI thread. A system history is therefore
a sequence of events, each either one enqueue (in lock order) or one drain
invocation; the output list records the fragments handed to
`send_to_file`, in order. -/

inductive QEvent where
  | enq (t : String)
  | drain
deriving DecidableEq, Repr

structure QState where
  queue : List String
  output : List String
deriving DecidableEq, Repr

/-- One event: `enq t` is `Messages.print` appending `t` to the deque;
`drain` is one invocation of `service_text_queue`. -/
def stepQ (s : QState) : QEvent → QState
  | .enq t => ⟨s.queue ++ [t], s.output⟩
  | .drain =>
    let r := service_text_queue s.queue
    ⟨r.queue, s.output ++ r.written.toList⟩

def runQ (evs : List QEvent) (s : QState) : QState := evs.foldl stepQ s

/-- The initial state: empty deque, nothing written yet. -/
def initQ : QState := ⟨[], []⟩

/-- The fragments enqueued by a history, in lock order. -/
def enqueuedOf : List QEvent → List String
  | [] => []
  | .enq t :: evs => t :: enqueuedOf evs
  | .drain :: evs => enqueuedOf evs

theorem runQ_cons (e : QEvent) (evs : List QEvent) (s : QState) :
    runQ (e :: evs) s = runQ evs (stepQ s e) := rfl

theorem runQ_append (evs evs' : List QEvent) (s : QState) :
    runQ (evs ++ evs') s = runQ evs' (runQ evs s) := List.foldl_append ..

/-- Conservation: what has been written plus what is still queued is
exactly what was enqueued, in order. -/
theorem runQ_output_append_queue (evs : List QEvent) : ∀ s : QState,
    (runQ evs s).output ++ (runQ evs s).queue = s.output ++ (s.queue ++ enqueuedOf evs) := by
  induction evs with
  | nil => intro s; simp [runQ, enqueuedOf]
  | cons e evs ih =>
    intro s
    cases e with
    | enq t =>
      rw [runQ_cons, ih]
      simp [stepQ, enqueuedOf]
    | drain =>
      rw [runQ_cons, ih]
      cases hq : s.queue with
      | nil => simp [stepQ, service_text_queue, hq, enqueuedOf]
      | cons t rest => simp [stepQ, service_text_queue, hq, enqueuedOf]

/-- Running the enqueues of `ts` appends `ts` to the queue. -/
theorem runQ_enqs (ts : List String) : ∀ s : QState,
    runQ (ts.map QEvent.enq) s = ⟨s.queue ++ ts, s.output⟩ := by
  induction ts with
  | nil => intro s; simp [runQ]
  | cons t ts ih =>
    intro s
    rw [List.map_cons, runQ_cons, ih]
    simp [stepQ]

/-- Running `n` drain steps delivers the first `n` queued fragments, in
queue order. -/
theorem runQ_drains (n : Nat) : ∀ q out : List String,
    runQ (List.replicate n QEvent.drain) ⟨q, out⟩ = ⟨q.drop n, out ++ q.take n⟩ := by
  induction n with
  | zero => intro q out; simp [runQ]
  | succ n ih =>
    intro q out
    rw [List.replicate_succ, runQ_cons]
    cases q with
    | nil => simp [stepQ, service_text_queue, ih]
    | cons t rest => simp [stepQ, service_text_queue, ih]

/-- Claim C1: delivery to the output sink is strictly FIFO. For every
history of enqueues and drain invocations (the enqueues in the total order
imposed by `text_queue_lock`): (1) the fragments written so far followed by
the fragments still queued are exactly the enqueued fragments in enqueue
order — so nothing is ever dropped, duplicated, or reordered; (2) each
drain invocation writes exactly the first still-queued fragment (one
fragment, or none when the queue is empty); (3) after `n` enqueues of
`t1..tn` followed by `n` drain invocations, the sink has received exactly
`t1..tn`, each exactly once, in that order. -/
theorem C1_fifo_delivery :
    (∀ evs : List QEvent,
      (runQ evs initQ).output ++ (runQ evs initQ).queue = enqueuedOf evs)
    ∧ (∀ evs : List QEvent,
      (runQ (evs ++ [QEvent.drain]) initQ).output
        = (runQ evs initQ).output ++ (runQ evs initQ).queue.take 1)
    ∧ (∀ ts : List String,
      (runQ (ts.map QEvent.enq ++ List.replicate ts.length QEvent.drain) initQ).output
        = ts) := by
  refine ⟨fun evs => ?_, fun evs => ?_, fun ts => ?_⟩
  · have := runQ_output_append_queue evs initQ
    simpa [initQ] using this
  · rw [runQ_append]
    have hstep : runQ [QEvent.drain] (runQ evs initQ)
        = stepQ (runQ evs initQ) QEvent.drain := rfl
    rw [hstep]
    cases hq : (runQ evs initQ).queue with
    | nil => simp [stepQ, service_text_queue, hq]
    | cons t rest => simp [stepQ, service_text_queue, hq]
  · rw [runQ_append, runQ_enqs, initQ]
    simp only [List.nil_append]
    rw [runQ_drains]
    simp

/-- Claim C4: one drain invocation on an empty queue is a no-op — it writes
nothing and does not re-arm, terminating the drain chain; on a non-empty
queue it pops exactly one fragment (the front), writes it, and re-arms
if and only if the queue is non-empty after the pop, with the short
non-zero delay of 1 millisecond. -/
theorem C4_drain_step :
    service_text_queue [] = ⟨[], none, none⟩
    ∧ (∀ (t : String) (rest : List String),
      (service_text_queue (t :: rest)).queue = rest
      ∧ (service_text_queue (t :: rest)).written = some t
      ∧ ((service_text_queue (t :: rest)).rearmDelay = some 1 ↔ rest ≠ [])
      ∧ ∀ d, (service_text_queue (t :: rest)).rearmDelay = some d → d = 1 ∧ d ≠ 0) := by
  refine ⟨rfl, fun t rest => ⟨rfl, rfl, ?_, ?_⟩⟩
  · cases rest <;> simp [service_text_queue]
  · intro d hd
    cases rest <;> simp [service_text_queue] at hd
    omega

/-- Witness for C4 at a concrete two-element queue. -/
theorem C4_drain_step_witness :
    (service_text_queue ["a", "b"]).queue = ["b"]
    ∧ (service_text_queue ["a", "b"]).written = some "a"
    ∧ (service_text_queue ["a", "b"]).rearmDelay = some 1 := by
  obtain ⟨-, h⟩ := C4_drain_step
  obtain ⟨h1, h2, h3, -⟩ := h "a" ["b"]
  exact ⟨h1, h2, h3.mpr (by decide)⟩

/-! ### Lock/IO event trace of the drain step (C2)

`service_text_queue` in full, as the sequence of lock operations, queue
operations, sink writes and scheduler calls it performs, in program order:

    self.text_queue_lock.acquire()          -- line 152
    try:
        if(len(self.text_queue) == 0):
            return                          -- `finally` still releases
        characters = self.text_queue.popleft()
        is_empty = (len(self.text_queue) == 0)
        self.send_to_file(characters)       -- line 162: inside the try block
    finally:
        self.text_queue_lock.release()      -- line 165
    if(not is_empty):
        sublime.set_timeout(self.service_text_queue, 1)

Note that the call to `send_to_file` (the sink I/O) happens inside the
`try` block, i.e. before the `finally` releases the lock. -/

inductive LEv where
  | acquire
  | pop (t : String)
  | write (t : String)
  | release
  | rearm (delayMs : Nat)
deriving DecidableEq, Repr

/-- The event trace of one `service_text_queue` invocation, from the
source order above. -/
def service_text_queue_trace : List String → List LEv
  | [] => [.acquire, .release]
  | t :: rest =>
    [.acquire, .pop t, .write t, .release]
      ++ (if rest.isEmpty then [] else [.rearm 1])

/-- Pairs each event with whether the lock is held when the event runs
(`b` is the lock state entering the event; acquire/release update it). -/
def annotateLock (held : Bool) : List LEv → List (LEv × Bool)
  | [] => []
  | e :: rest =>
    let held' := match e with
      | .acquire => true
      | .release => false
      | _ => held
    (e, held) :: annotateLock held' rest

def isWriteEv : LEv → Bool
  | .write _ => true
  | _ => false

/-- True when some sink write in the trace runs while the lock is held. -/
def writesWhileLocked (tr : List LEv) : Bool :=
  (annotateLock false tr).any (fun p => isWriteEv p.1 && p.2)

/-- Counterexample to claim C2 as stated: on the one-element queue `["a"]`,
the drain step performs the `send_to_file` write while `text_queue_lock`
is held — the write happens inside the `try` block, before the `finally`
releases the lock. -/
theorem C2_counterexample :
    writesWhileLocked (service_text_queue_trace ["a"]) = true := by decide

/-- Claim C2 (amended): the drain step performs the sink write while the
text-queue lock is held — `send_to_file` is called inside the locked
region, the lock is released only afterwards (by the `finally` block),
and any re-arm scheduling happens after the release. -/
theorem C2_write_under_lock :
    (∀ q : List String,
      ((annotateLock false (service_text_queue_trace q)).all
        (fun p => !(isWriteEv p.1) || p.2)) = true)
    ∧ (∀ (t : String) (rest : List String),
      service_text_queue_trace (t :: rest)
        = [LEv.acquire, LEv.pop t, LEv.write t, LEv.release]
          ++ (if rest.isEmpty then [] else [LEv.rearm 1])) := by
  refine ⟨fun q => ?_, fun t rest => rfl⟩
  match q with
  | [] => rfl
  | t :: rest =>
    cases rest <;> simp [service_text_queue_trace, annotateLock, isWriteEv]

/-! ### The sink write, from `Messages.send_to_file` (messages.py lines 170-178)

    text = text.replace('\r\n', '\n'). replace('\r', '\n').replace('\\n', '\n')
    self.output_view.set_read_only(False)
    self.output_view.run_command('append', \x7b'characters': text\x7d)
    self.output_view.set_read_only(True)
    self.output_view.run_command("move_to", \x7b"extend": True, "to": "eof"\x7d)

The sink (a Sublime view) is modelled by its content, read-only flag and
cursor position; the `append` command has no effect on a read-only view,
which is why the source toggles the flag around it. -/

structure SinkState where
  content : List Char
  read_only : Bool
  cursor : Nat
deriving DecidableEq, Repr

inductive SinkEv where
  | set_read_only (b : Bool)
  | append (text : List Char)
  | move_to_eof
deriving DecidableEq, Repr

def applySinkEv (s : SinkState) : SinkEv → SinkState
  | .set_read_only b => { s with read_only := b }
  | .append t => if s.read_only then s else { s with content := s.content ++ t }
  | .move_to_eof => { s with cursor := s.content.length }

def runSink (s : SinkState) (evs : List SinkEv) : SinkState := evs.foldl applySinkEv s

/-- `Messages.send_to_file` as the sequence of operations it performs on
`self.output_view`, in source order. -/
def send_to_file (text : List Char) : List SinkEv :=
  [.set_read_only false, .append (normalize text), .set_read_only true, .move_to_eof]

/-- Claim C7: for every fragment, `send_to_file` performs exactly the
sequence set-read-only-false, append the normalized text, set-read-only
true, move the cursor to end-of-content — and from any starting sink
state the result is the old content extended by the normalized fragment,
with the read-only flag restored to `true` and the cursor at the end. -/
theorem C7_send_to_file_sequence :
    (∀ text : List Char,
      send_to_file text
        = [SinkEv.set_read_only false, SinkEv.append (normalize text),
           SinkEv.set_read_only true, SinkEv.move_to_eof])
    ∧ (∀ (s : SinkState) (text : List Char),
      runSink s (send_to_file text)
        = ⟨s.content ++ normalize text, true, (s.content ++ normalize text).length⟩) := by
  refine ⟨fun text => rfl, fun s text => ?_⟩
  simp [runSink, send_to_file, applySinkEv, List.foldl]

/-! ### The class-level queue, shared by every instance (C10)

In messages.py lines 45-49 the queue and its lock are defined in the class
body of `Messages`:

    class Messages:
        port = None
        window = None
        text_queue = collections.deque()
        text_queue_lock = threading.Lock()

`__init__` never assigns `self.text_queue` or `self.text_queue_lock`, and
no other method rebinds them on an instance, so by Python attribute
lookup every `self.text_queue` in `print` and `service_text_queue`
resolves to the one class attribute: a single deque and a single lock for
the whole process, whichever instance is used. `output_view`, in
contrast, is set per instance in `__init__`. The process state below has
therefore one shared queue, while each instance id keeps its own sink
content. -/

structure ProcState where
  queue : List String
  sinkContent : Nat → List String

namespace Messages

/-- `Messages.print` called on instance `i`: the fragment is appended to
the single class-level deque; the instance receiving the call does not
matter for where the fragment goes (hence the parameter is unused). -/
def print (i : Nat) (t : String) (ps : ProcState) : ProcState :=
  { ps with queue := ps.queue ++ [t] }

/-- One `service_text_queue` invocation running on instance `i`: it pops
from the single class-level deque and delivers to instance `i`'s own
`output_view`. -/
def drain (i : Nat) (ps : ProcState) : ProcState :=
  match ps.queue with
  | [] => ps
  | t :: rest =>
    { queue := rest,
      sinkContent := fun k => if k = i then ps.sinkContent k ++ [t] else ps.sinkContent k }

end Messages

/-- Claim C10: the text queue and its lock are class attributes, so all
`Messages` instances share one FIFO: (1) enqueueing through instance `i`
and through instance `j` produce the identical process state — the
fragment lands in the same single queue; (2) a fragment enqueued through
instance `i` can be popped and delivered by a drain step running on a
different instance `j` (here from an empty queue: `j`'s sink receives
`i`'s fragment). -/
theorem C10_shared_class_queue :
    (∀ (i j : Nat) (t : String) (ps : ProcState),
      Messages.print i t ps = Messages.print j t ps)
    ∧ (∀ (i j : Nat) (t : String) (ps : ProcState), ps.queue = [] →
      (Messages.drain j (Messages.print i t ps)).sinkContent j
        = ps.sinkContent j ++ [t]
      ∧ (Messages.drain j (Messages.print i t ps)).queue = []) := by
  refine ⟨fun i j t ps => rfl, fun i j t ps hq => ?_⟩
  simp [Messages.print, Messages.drain, hq]

/-- Witness for C10: two distinct instances (0 enqueues, 1 drains and
receives) on a concrete empty-queue state. -/
theorem C10_shared_class_queue_witness :
    (Messages.drain 1 (Messages.print 0 "hello" ⟨[], fun _ => []⟩)).sinkContent 1
      = ["hello"]
    ∧ (0 : Nat) ≠ 1 := by
  refine ⟨?_, by decide⟩
  have h := C10_shared_class_queue.2 0 1 "hello" ⟨[], fun _ => []⟩ rfl
  exact h.1

/-! ### `ProjectCheck.is_iot` (project_check.py lines 28-42)

    ext = self.get_file_extension()
    accepted = ['ino', 'pde', 'cpp', 'c', '.S']
    if(ext not in accepted):
        return False
    return True
-/

/-- `ProjectCheck.is_iot`, as a function of the active file's extension
string. -/
def is_iot (ext : String) : Bool :=
  let accepted : List String := ["ino", "pde", "cpp", "c", ".S"]
  if ext ∉ accepted then false else true

/-- Modelled from the spec: `get_file_extension` is inherited from
`ProjectRecognition`, which is not under src/; per the spec ("false for
no-extension input"), a file with no extension yields the empty extension
string. -/
def extensionOfFileWithoutExtension : String := ""

/-- Claim C6: `is_iot` returns true exactly for the fixed, case-sensitive
allow-list `ino`, `pde`, `cpp`, `c`, and the literal string `.S`; it is
false for `py` and `txt`, false for a file with no extension, and the
match is case-sensitive (e.g. `INO` is rejected). -/
theorem C6_is_iot_allowlist :
    (∀ ext : String, is_iot ext = true
      ↔ (ext = "ino" ∨ ext = "pde" ∨ ext = "cpp" ∨ ext = "c" ∨ ext = ".S"))
    ∧ is_iot "py" = false
    ∧ is_iot "txt" = false
    ∧ is_iot extensionOfFileWithoutExtension = false
    ∧ is_iot "INO" = false := by
  refine ⟨fun ext => ?_, by decide, by decide, by decide, by decide⟩
  simp [is_iot]

/-- Witness for C6 at concrete extensions, both directions of the
allow-list equivalence. -/
theorem C6_is_iot_allowlist_witness :
    is_iot "ino" = true ∧ is_iot ".S" = true := by
  exact ⟨(C6_is_iot_allowlist.1 "ino").mpr (Or.inl rfl),
    (C6_is_iot_allowlist.1 ".S").mpr (by tauto)⟩

/-! ### `ProjectCheck.structurize_project` (project_check.py lines 68-107)

    pio_structure = self.get_structure_option()
    if(pio_structure):
        file_path = self.get_file_path()
        if('src' not in file_path):
            from shutil import move
            self.close_file()
            dst = add_folder_to_filepath(file_path, 'src')
            move(file_path, dst)
            self.window.open_file(dst)
            return
    self.override_src()

`override_src` loads the `platformio.ini` at `get_ini_path()` into a
`ConfigObj`, replaces its `platformio` section by
`\x7b'src_dir': self.get_project_path()\x7d` and writes the file back.
Note that the guard `'src' not in file_path` is a *substring* test on the
whole path string, while the docstring of `structurize_project` says "it
need to be checked if the open file is inside of the src folder".

The path arithmetic of `add_folder_to_filepath` (lines 149-166) uses
`os.path.dirname`, `os.path.basename` and `os.path.join`, embedded below
with their posixpath semantics. -/

/-- `posixpath.basename`: the part after the last slash. -/
def pyBasename (p : List Char) : List Char :=
  (p.reverse.takeWhile (fun c => c ≠ '/')).reverse

/-- `posixpath.dirname`: the part before the last slash, with trailing
slashes stripped unless the result consists only of slashes. -/
def pyDirname (p : List Char) : List Char :=
  let head := (p.reverse.dropWhile (fun c => c ≠ '/')).reverse
  if head ≠ [] ∧ head.any (fun c => c ≠ '/') then
    (head.reverse.dropWhile (fun c => c = '/')).reverse
  else head

/-- `posixpath.join` for two components. -/
def pyJoin2 (a b : List Char) : List Char :=
  if b.head? = some '/' then b
  else if a = [] ∨ a.getLast? = some '/' then a ++ b
  else a ++ '/' :: b

/-- `add_folder_to_filepath(src_path, new_folder)`:
`os.path.join(dirname(src_path), new_folder, basename(src_path))`. -/
def add_folder_to_filepath (src_path new_folder : String) : String :=
  ⟨pyJoin2 (pyJoin2 (pyDirname src_path.data) new_folder.data) (pyBasename src_path.data)⟩

/-- `pat` matches the front of the list. -/
def frontMatch : List Char → List Char → Bool
  | [], _ => true
  | _ :: _, [] => false
  | p :: ps, c :: cs => p = c && frontMatch ps cs

/-- Python's `in` operator on strings: `pat` occurs as a contiguous
substring. -/
def containsSub (pat : List Char) : List Char → Bool
  | [] => pat.isEmpty
  | c :: rest => frontMatch pat (c :: rest) || containsSub pat rest

/-- The external side effects `structurize_project` can perform. -/
inductive PEffect where
  | closeFile
  | moveFile (src dst : String)
  | openFile (p : String)
  | writeConfig (iniPath sect key value : String)
deriving DecidableEq, Repr

/-- `ProjectCheck.structurize_project`, as the list of effects it performs,
as a function of the structure option, the active file path, the project
path and the ini path (the latter two read through `get_project_path()`
and `get_ini_path()`). The guard is the source's substring test
`'src' not in file_path`. -/
def structurize_project (pio_structure : Bool) (file_path project_path ini_path : String) :
    List PEffect :=
  if pio_structure && !(containsSub "src".data file_path.data) then
    let dst := add_folder_to_filepath file_path "src"
    [.closeFile, .moveFile file_path dst, .openFile dst]
  else
    [.writeConfig ini_path "platformio" "src_dir" project_path]

/-- The claim's notion "the file is under a `src` subdirectory": some
directory component of the path equals `src`. -/
def underSrcDir (p : String) : Bool :=
    ((p.data.splitOn '/').dropLast).contains "src".data

/-- Claim C3 evaluated on the code: the guard `'src' not in file_path` is a
substring test on the whole path, so with strict structure enabled and the
active file `/proj/srcfile.ino` — whose name merely contains `src`, the
file not being under any `src` directory — the code skips the
close/move/reopen branch and instead rewrites `platformio.src_dir`,
contradicting the claim (and the function's own docstring, which asks
whether "the open file is inside of the src folder"). On a path without
the substring, e.g. `/proj/sketch.ino`, the claimed behavior does hold:
close, then move to `/proj/src/sketch.ino`, then reopen, with no config
write; and with strict structure disabled the config rewrite sets
`platformio.src_dir` to the project path. -/
theorem C3_structurize_src_substring_bug :
    structurize_project true "/proj/srcfile.ino" "/proj" "/proj/platformio.ini"
      = [PEffect.writeConfig "/proj/platformio.ini" "platformio" "src_dir" "/proj"]
    ∧ underSrcDir "/proj/srcfile.ino" = false
    ∧ structurize_project true "/proj/sketch.ino" "/proj" "/proj/platformio.ini"
      = [PEffect.closeFile,
         PEffect.moveFile "/proj/sketch.ino" "/proj/src/sketch.ino",
         PEffect.openFile "/proj/src/sketch.ino"]
    ∧ underSrcDir "/proj/src/sketch.ino" = true
    ∧ structurize_project false "/proj/sketch.ino" "/proj" "/proj/platformio.ini"
      = [PEffect.writeConfig "/proj/platformio.ini" "platformio" "src_dir" "/proj"] := by
  refine ⟨?_, by decide, ?_, by decide, ?_⟩ <;> decide

/-! ### Panel lifecycle: `Messages.create_panel` and `Messages.recover_panel`
(messages.py lines 79-99 and 180-189)

    def create_panel(self, direction='down', in_file=False):
        global session
        self.window = sublime.active_window()
        if(not self.output_view and not self.recover_panel(self._name)):
            self.select_output(in_file)
        self.window.run_command("show_panel", ...)
        if(self._init_text):
            self.print(self._init_text)
        if(self._name):
            session[self._name] = self

`recover_panel(name)` calls `findInOpendView(name)` (an external helper
scanning the currently open views for one whose display name equals
`name`); when a view is found it binds `self.output_view` to it and
returns truthy. `select_output(in_file)` (lines 102-121) binds
`self.output_view` to a fresh file view when `in_file` is true, else to
the embedded output panel `create_output_panel('deviot')`. Python
truthiness makes both `None` and the empty string falsy in
`if(self._name)` and `if(self._init_text)`. -/

/-- A bound output sink: a file view (by id) or the embedded `deviot`
output panel. -/
inductive SinkRef where
  | view (id : Nat)
  | panel
deriving DecidableEq, Repr

/-- The per-instance state touched by `create_panel`, plus the
process-wide `session` mapping and the shared text queue (the
`self.print(self._init_text)` call enqueues there). Handlers in the
session mapping are identified by instance id. -/
structure MsgState where
  output_view : Option SinkRef
  name : Option String
  init_text : Option String
  session : List (String × Nat)
  queue : List String
deriving DecidableEq, Repr

/-- The external environment: the display names of currently open views,
as scanned by `findInOpendView`. -/
structure Env where
  openViews : List (String × Nat)
deriving DecidableEq, Repr

/-- `findInOpendView` on an optional name (`self._name` may be `None`,
which matches no view). -/
def findInOpendView (env : Env) : Option String → Option Nat
  | none => none
  | some n => env.openViews.lookup n

/-- `Messages.recover_panel`: binds `output_view` when a live open view
with the given display name exists; returns whether one was found. -/
def recover_panel (env : Env) (st : MsgState) (name : Option String) : MsgState × Bool :=
  match findInOpendView env name with
  | some v => ({ st with output_view := some (SinkRef.view v) }, true)
  | none => (st, false)

/-- `Messages.select_output`: a fresh file view when `in_file`, else the
embedded output panel. -/
def select_output (st : MsgState) (in_file : Bool) (freshView : Nat) : MsgState :=
  if in_file then { st with output_view := some (SinkRef.view freshView) }
  else { st with output_view := some SinkRef.panel }

/-- Python truthiness of an optional string. -/
def truthy : Option String → Bool
  | none => false
  | some s => !s.isEmpty

/-- `Messages.create_panel` on instance `selfId`. `freshView` is the id the
host would give a newly created file view. Returns the new state and
whether a new sink was created. -/
def create_panel (selfId : Nat) (env : Env) (in_file : Bool) (freshView : Nat)
    (st : MsgState) : MsgState × Bool :=
  let (st1, needNew) :=
    match st.output_view with
    | some _ => (st, false)
    | none =>
      let (st', found) := recover_panel env st st.name
      (st', !found)
  let st2 := if needNew then select_output st1 in_file freshView else st1
  let st3 := if truthy st2.init_text then
      { st2 with queue := st2.queue ++ [st2.init_text.getD ""] }
    else st2
  let st4 := match st3.name, truthy st3.name with
    | some n, true => { st3 with session := (n, selfId) :: st3.session }
    | _, _ => st3
  (st4, needNew)

/-- Claim C8: when a sink with the configured non-empty name is already
tracked by a live open view (`findInOpendView` finds it) and no sink is
bound yet, `create_panel` reuses that view and creates nothing new, and it
registers `(name, selfId)` in the process-wide session mapping; calling it
a second time again creates nothing and binds the same sink, with the
session mapping still resolving the name to this handler. When instead no
sink is bound and no open view carries the name, a new sink is created —
a file view or the embedded panel according to the flag — and the name is
registered just the same. -/
theorem C8_create_panel_reuse (env : Env) (st : MsgState) (selfId freshView : Nat)
    (in_file : Bool) (n : String)
    (hn : st.name = some n) (hne : ¬n.isEmpty) (hov : st.output_view = none) :
    (∀ v, env.openViews.lookup n = some v →
      (create_panel selfId env in_file freshView st).2 = false
      ∧ (create_panel selfId env in_file freshView st).1.output_view
          = some (SinkRef.view v)
      ∧ (create_panel selfId env in_file freshView st).1.session.lookup n = some selfId
      ∧ (create_panel selfId env in_file freshView
          (create_panel selfId env in_file freshView st).1).2 = false
      ∧ (create_panel selfId env in_file freshView
          (create_panel selfId env in_file freshView st).1).1.output_view
          = some (SinkRef.view v)
      ∧ (create_panel selfId env in_file freshView
          (create_panel selfId env in_file freshView st).1).1.session.lookup n
          = some selfId)
    ∧ (env.openViews.lookup n = none →
      (create_panel selfId env in_file freshView st).2 = true
      ∧ (create_panel selfId env in_file freshView st).1.output_view
          = some (if in_file then SinkRef.view freshView else SinkRef.panel)
      ∧ (create_panel selfId env in_file freshView st).1.session.lookup n
          = some selfId) := by
  obtain ⟨ov, nm, it, sess, qu⟩ := st
  obtain rfl : nm = some n := hn
  obtain rfl : ov = none := hov
  have hne' : n.isEmpty = false := by simpa using hne
  constructor
  · intro v hv
    cases it with
    | none =>
      simp [create_panel, recover_panel, findInOpendView, select_output, truthy,
        hv, hne', List.lookup]
    | some s =>
      by_cases hs : s.isEmpty <;>
        simp [create_panel, recover_panel, findInOpendView, select_output, truthy,
          hv, hne', hs, List.lookup]
  · intro hv
    cases it with
    | none =>
      cases in_file <;>
        simp [create_panel, recover_panel, findInOpendView, select_output, truthy,
          hv, hne', List.lookup]
    | some s =>
      cases in_file <;> by_cases hs : s.isEmpty <;>
        simp [create_panel, recover_panel, findInOpendView, select_output, truthy,
          hv, hne', hs, List.lookup]

/-- Witness for C8: a concrete environment tracking an open view named
`Build Output`, and a fresh state configured with that name. -/
theorem C8_create_panel_reuse_witness :
    (create_panel 3 ⟨[("Build Output", 7)]⟩ false 99
      ⟨none, some "Build Output", none, [], []⟩).1.output_view
        = some (SinkRef.view 7)
    ∧ (create_panel 3 ⟨[("Build Output", 7)]⟩ false 99
      ⟨none, some "Build Output", none, [], []⟩).2 = false
    ∧ (create_panel 3 ⟨[("Build Output", 7)]⟩ false 99
      ⟨none, some "Build Output", none, [], []⟩).1.session.lookup "Build Output"
        = some 3 := by
  have h := (C8_create_panel_reuse ⟨[("Build Output", 7)]⟩
    ⟨none, some "Build Output", none, [], []⟩ 3 99 false "Build Output"
    rfl (by decide) rfl).1 7 (by decide)
  exact ⟨h.2.1, h.1, h.2.2.1⟩

/-! ### Closing a tracked view: `Messages.on_close` and `check_empty_panel`
(messages.py lines 218-242)

    def on_pre_close(self, view):
        self.window = view.window()

    def on_close(self, view):
        if(view.name() not in session):
            return
        if(check_empty_panel(self.window)):
            self.window.run_command("destroy_pane", args=\x7b"direction": "self"\x7d)
            self.window = None

    def check_empty_panel(window):
        num = window.num_groups()
        for n in range(0, num):
            if(not window.views_in_group(n)):
                window.focus_group(n)
                return True
        return False

`session` is read but never written here: no entry is ever deleted. -/

/-- A window: the views in each of its layout groups. -/
structure PanelWindow where
  groups : List (List Nat)
deriving DecidableEq, Repr

/-- `check_empty_panel`: the index of the first group with no views (the
group the function focuses before returning `True`), or `none` when every
group has a view (the function returns `False`). -/
def check_empty_panel (w : PanelWindow) : Option Nat :=
  w.groups.findIdx? (fun g => g.isEmpty)

/-- The outcome of `Messages.on_close`: the session mapping afterwards,
the stored window reference afterwards (`self.window`, set to the closing
view's window by `on_pre_close`), whether `destroy_pane` ran, and which
group `check_empty_panel` focused, if any. -/
structure OnCloseResult where
  session : List (String × Nat)
  window : Option PanelWindow
  destroyedPane : Bool
  focusedGroup : Option Nat
deriving DecidableEq, Repr

/-- `Messages.on_close` for a closing view with display name `viewName`. -/
def on_close (viewName : String) (sess : List (String × Nat)) (w : PanelWindow) :
    OnCloseResult :=
  if (sess.lookup viewName).isNone then ⟨sess, some w, false, none⟩
  else
    match check_empty_panel w with
    | some n => ⟨sess, none, true, some n⟩
    | none => ⟨sess, some w, false, none⟩

/-- Claim C9: `on_close` never touches the session mapping — the mapping
after the call is the mapping before it, no entry removed; when the
closing view's name is not in the session it is a complete no-op; and the
pane is destroyed, with the stored window reference cleared, exactly when
the name is tracked and the owning window has some group with no views. -/
theorem C9_on_close_frame (viewName : String) (sess : List (String × Nat))
    (w : PanelWindow) :
    (on_close viewName sess w).session = sess
    ∧ (sess.lookup viewName = none → on_close viewName sess w = ⟨sess, some w, false, none⟩)
    ∧ ((on_close viewName sess w).destroyedPane = true
        ↔ (sess.lookup viewName).isSome ∧ w.groups.any (fun g => g.isEmpty))
    ∧ ((on_close viewName sess w).window = none
        ↔ (on_close viewName sess w).destroyedPane = true) := by
  refine ⟨?_, ?_, ?_, ?_⟩
  · unfold on_close
    split
    · rfl
    · cases check_empty_panel w <;> simp
  · intro h
    simp [on_close, h]
  · unfold on_close
    split
    · rename_i h
      simp only [Option.isNone_iff_eq_none] at h
      simp [h]
    · rename_i h
      have hs : (sess.lookup viewName).isSome = true := by
        cases hx : sess.lookup viewName <;> simp [hx] at h ⊢
      cases hc : check_empty_panel w with
      | none =>
        have hany : w.groups.any (fun g => g.isEmpty) = false := by
          have hiso := @List.findIdx?_isSome _ w.groups (fun g => g.isEmpty)
          rw [check_empty_panel] at hc
          rw [hc] at hiso
          simpa using hiso.symm
        simp [hany]
      | some k =>
        have hany : w.groups.any (fun g => g.isEmpty) = true := by
          have hiso := @List.findIdx?_isSome _ w.groups (fun g => g.isEmpty)
          rw [check_empty_panel] at hc
          rw [hc] at hiso
          simpa using hiso.symm
        simp [hany, hs]
  · unfold on_close
    split
    · simp
    · cases check_empty_panel w <;> simp

/-- Witness for C9: closing an untracked view is a no-op; closing a
tracked view whose window has an empty second group destroys the pane and
clears the window, leaving the session unchanged. -/
theorem C9_on_close_frame_witness :
    (on_close "log" [("log", 2)] ⟨[[4], []]⟩).session = [("log", 2)]
    ∧ (on_close "log" [("log", 2)] ⟨[[4], []]⟩).destroyedPane = true
    ∧ on_close "other" [("log", 2)] ⟨[[4], []]⟩
        = ⟨[("log", 2)], some ⟨[[4], []]⟩, false, none⟩ := by
  refine ⟨(C9_on_close_frame "log" [("log", 2)] ⟨[[4], []]⟩).1, ?_, ?_⟩
  · exact ((C9_on_close_frame "log" [("log", 2)] ⟨[[4], []]⟩).2.2.1).mpr
      (by constructor <;> decide)
  · exact (C9_on_close_frame "other" [("log", 2)] ⟨[[4], []]⟩).2.1 (by decide)

end Deviot
